import Mathlib

/-!
Shallow embedding of the tabular transform pipelines in
`src/module_1/week_8/task_3.py`, `task_4.py` and `task_5.py`.

Tables are lists of structure values (one structure per CSV row schema).
Pandas float scalars are modelled by `PFloat` (a finite rational, an
infinity, or NaN, which also stands for a pandas null); machine floats are
idealised as rationals, and `Series.round(2)` is modelled by rounding to an
integer number of hundredths.  Pandas merges are modelled by `leftJoin` and
`outerJoin`: for each left row, one output row per matching right row, or a
single null-padded row when there is no match; in outer mode the right rows
that match no left row are appended null-padded on the left.
-/

namespace Spec2Proof

/-- Pandas float scalar: a finite rational, an infinity (produced by
`x / 0` with `x ≠ 0` under numpy true division), or NaN (which pandas also
uses for a missing value). -/
inductive PFloat where
  | Finite (q : ℚ)
  | PInf
  | NInf
  | NaN
deriving DecidableEq, Repr

/-- Numpy true division on pandas scalars: `0 / 0` is NaN, `x / 0` is a
signed infinity for `x ≠ 0`, NaN propagates, and dividing a finite value by
an infinity gives `0`. -/
def pdiv : PFloat → PFloat → PFloat
  | .NaN, _ => .NaN
  | _, .NaN => .NaN
  | .Finite x, .Finite y =>
      if y = 0 then
        if x = 0 then .NaN else if 0 < x then .PInf else .NInf
      else .Finite (x / y)
  | .Finite _, .PInf => .Finite 0
  | .Finite _, .NInf => .Finite 0
  | .PInf, .Finite y => if 0 ≤ y then .PInf else .NInf
  | .NInf, .Finite y => if 0 ≤ y then .NInf else .PInf
  | _, _ => .NaN

/-- Multiplication by the positive constant 100 (the `* 100` of the
percentage formulas); infinities and NaN are preserved. -/
def pmul100 : PFloat → PFloat
  | .Finite q => .Finite (q * 100)
  | x => x

/-- `Series.round(2)`: a finite value is rounded to a whole number of
hundredths; infinities and NaN are unchanged. -/
def round2 : PFloat → PFloat
  | .Finite q => .Finite (((round (q * 100) : ℤ) : ℚ) / 100)
  | x => x

/-- `Series.fillna(0)`: NaN becomes `0`; every other value (infinities
included) is left as it is. -/
def fillna0 : PFloat → PFloat
  | .NaN => .Finite 0
  | x => x

/-- Comparison used by `pmax` on non-NaN values; on NaN it is never
relevant because `pmax` filters NaN out first. -/
def ple : PFloat → PFloat → Bool
  | .NaN, _ => false
  | _, .NaN => false
  | .NInf, _ => true
  | _, .PInf => true
  | .PInf, _ => false
  | _, .NInf => false
  | .Finite a, .Finite b => decide (a ≤ b)

/-- Binary maximum with pandas NaN-skipping: a NaN argument is ignored. -/
def pmax (a b : PFloat) : PFloat :=
  match a, b with
  | .NaN, y => y
  | x, .NaN => x
  | x, y => if ple x y then y else x

/-- `Series.max()`: NaN-skipping maximum; the maximum of an empty or
all-NaN column is NaN. -/
def seriesMax (xs : List PFloat) : PFloat := xs.foldr pmax .NaN

/-- Pandas scalar equality `==`: NaN compares unequal to everything
(itself included); equal infinities and equal finite values compare
equal. -/
def peq : PFloat → PFloat → Bool
  | .NaN, _ => false
  | _, .NaN => false
  | .Finite a, .Finite b => decide (a = b)
  | .PInf, .PInf => true
  | .NInf, .NInf => true
  | _, _ => false

/-- A nullable integer column entry viewed as a pandas float scalar:
null is NaN. -/
def optToPFloat : Option ℤ → PFloat
  | none => .NaN
  | some n => .Finite (n : ℚ)

/-- The value is a finite percentage in the closed interval [0, 100]. -/
def pctInRange : PFloat → Prop
  | .Finite q => 0 ≤ q ∧ q ≤ 100
  | _ => False

/-- Pandas left equi-join (`how='left'`): each left row is paired with
every matching right row, or with `none` when no right row matches. -/
def leftJoin {α β K : Type} [DecidableEq K] (ks : α → K) (kr : β → K)
    (ls : List α) (rs : List β) : List (α × Option β) :=
  ls.flatMap fun l =>
    match rs.filter fun r => decide (kr r = ks l) with
    | [] => [(l, none)]
    | ms => ms.map fun r => (l, some r)

/-- Pandas outer equi-join (`how='outer'`): the left-join rows followed by
the right rows that match no left row, padded with `none` on the left. -/
def outerJoin {α β K : Type} [DecidableEq K] (ks : α → K) (kr : β → K)
    (ls : List α) (rs : List β) : List (Option α × Option β) :=
  (ls.flatMap fun l =>
    match rs.filter fun r => decide (kr r = ks l) with
    | [] => [((some l : Option α), (none : Option β))]
    | ms => ms.map fun r => (some l, some r))
  ++ ((rs.filter fun r => (ls.filter fun l => decide (ks l = kr r)).isEmpty).map
      fun r => ((none : Option α), some r))

/-- A row of `census_dwelling_regional_summary.csv` (output of task_3,
left input of task_5's `merge_datasets`). -/
structure DwellRow where
  regionCode : String
  regionName : String
  unsharedDwellings : ℤ
  sharedDwellings : ℤ
  totalDwellings : ℤ
deriving DecidableEq, Repr

/-- A row of `task_4_regional_property_summary.csv` (output of task_4,
right input of task_5's `merge_datasets`). -/
structure SalesRow where
  regionCode : String
  regionName : String
  d : ℤ
  f : ℤ
  s : ℤ
  t : ℤ
  total : ℤ
deriving DecidableEq, Repr

/-- Join key of `merge_datasets`: the pair of columns
`['Region_Code', 'Region_Name']`, compared verbatim. -/
def dwKey (r : DwellRow) : String × String := (r.regionCode, r.regionName)

/-- Join key of the sales side of `merge_datasets`, compared verbatim. -/
def slKey (r : SalesRow) : String × String := (r.regionCode, r.regionName)

/-- A row of the merged frame produced by `merge_datasets` after its
fill step: the dwelling columns stay nullable (`fillna` is applied only to
the sales columns), while the five sales columns are zero-filled and cast
back to integer (`fillna(0).astype(int)`). -/
structure MergedRow where
  regionCode : String
  regionName : String
  unsharedDwellings : Option ℤ
  sharedDwellings : Option ℤ
  totalDwellings : Option ℤ
  d : ℤ
  f : ℤ
  s : ℤ
  t : ℤ
  total : ℤ
deriving DecidableEq, Repr

/-- Assemble one output row of `merge_datasets` from one outer-join row:
the key columns come from whichever side is present, the dwelling columns
are null on a sales-only row, and the sales columns are filled with
integer 0 on a dwellings-only row (source lines 36-40).  The
`(none, none)` case cannot arise from `outerJoin`. -/
def mergeRows : Option DwellRow × Option SalesRow → MergedRow
  | (some dw, osl) =>
      { regionCode := dw.regionCode
        regionName := dw.regionName
        unsharedDwellings := some dw.unsharedDwellings
        sharedDwellings := some dw.sharedDwellings
        totalDwellings := some dw.totalDwellings
        d := ((osl.map SalesRow.d).getD 0)
        f := ((osl.map SalesRow.f).getD 0)
        s := ((osl.map SalesRow.s).getD 0)
        t := ((osl.map SalesRow.t).getD 0)
        total := ((osl.map SalesRow.total).getD 0) }
  | (none, some sl) =>
      { regionCode := sl.regionCode
        regionName := sl.regionName
        unsharedDwellings := none
        sharedDwellings := none
        totalDwellings := none
        d := sl.d, f := sl.f, s := sl.s, t := sl.t, total := sl.total }
  | (none, none) =>
      { regionCode := "", regionName := ""
        unsharedDwellings := none, sharedDwellings := none, totalDwellings := none
        d := 0, f := 0, s := 0, t := 0, total := 0 }

/-- `merge_datasets` (task_5 lines 25-45): outer merge of the dwelling and
sales tables on `['Region_Code', 'Region_Name']`, then
`fillna(0).astype(int)` on the sales columns `D, F, S, T, Total` only. -/
def merge_datasets (dws : List DwellRow) (sls : List SalesRow) : List MergedRow :=
  (outerJoin dwKey slKey dws sls).map mergeRows

/-- A row after `calculate_percentages` (and also after
`calculate_national_totals`): the renamed sales columns plus the five
derived percentage columns. -/
structure AnalysisRow where
  regionCode : String
  regionName : String
  unsharedDwellings : Option ℤ
  sharedDwellings : Option ℤ
  totalDwellings : Option ℤ
  salesDetached : ℤ
  salesFlats : ℤ
  salesSemi : ℤ
  salesTerraced : ℤ
  totalSales : ℤ
  pctDetached : PFloat
  pctFlats : PFloat
  pctSemi : PFloat
  pctTerraced : PFloat
  salesRate : PFloat
deriving DecidableEq, Repr

/-- One percentage column of `calculate_percentages`:
`(num / den * 100).round(2)` followed by the later `fillna(0)`. -/
def pctOf (num den : ℤ) : PFloat :=
  fillna0 (round2 (pmul100 (pdiv (.Finite (num : ℚ)) (.Finite (den : ℚ)))))

/-- Row-wise body of `calculate_percentages` (task_5 lines 48-76): rename
the sales columns, derive the four property-type percentages from
`Total_Sales`, derive `Sales_Rate` from `Total_Dwellings` (NaN when the
dwelling side of the merge was null), and apply `fillna(0)` to the five
derived columns. -/
def calculate_percentages_row (m : MergedRow) : AnalysisRow :=
  { regionCode := m.regionCode
    regionName := m.regionName
    unsharedDwellings := m.unsharedDwellings
    sharedDwellings := m.sharedDwellings
    totalDwellings := m.totalDwellings
    salesDetached := m.d
    salesFlats := m.f
    salesSemi := m.s
    salesTerraced := m.t
    totalSales := m.total
    pctDetached := pctOf m.d m.total
    pctFlats := pctOf m.f m.total
    pctSemi := pctOf m.s m.total
    pctTerraced := pctOf m.t m.total
    salesRate :=
      fillna0 (round2 (pmul100 (pdiv (.Finite (m.total : ℚ)) (optToPFloat m.totalDwellings)))) }

/-- `calculate_percentages` applied to the whole merged table; every
derived column is element-wise, so the frame-level code is a map. -/
def calculate_percentages (ms : List MergedRow) : List AnalysisRow :=
  ms.map calculate_percentages_row

/-- Pandas `Series.sum()` on a nullable integer column: NaN entries are
skipped, and an all-null column sums to 0. -/
def sumOptCol (xs : List (Option ℤ)) : ℤ := (xs.filterMap id).sum

/-- A national percentage (task_5 lines 96-102): same formula as the
regional ones but with no `fillna` afterwards. -/
def natPct (num den : ℤ) : PFloat :=
  round2 (pmul100 (pdiv (.Finite (num : ℚ)) (.Finite (den : ℚ))))

/-- The synthetic national row built by `calculate_national_totals`
(task_5 lines 83-102): each count column is the column sum over the input
frame, and the percentages are recomputed from those totals. -/
def nationalRow (df : List AnalysisRow) : AnalysisRow :=
  { regionCode := "NATIONAL"
    regionName := "England & Wales"
    unsharedDwellings := some (sumOptCol (df.map (fun r => r.unsharedDwellings)))
    sharedDwellings := some (sumOptCol (df.map (fun r => r.sharedDwellings)))
    totalDwellings := some (sumOptCol (df.map (fun r => r.totalDwellings)))
    salesDetached := (df.map (fun r => r.salesDetached)).sum
    salesFlats := (df.map (fun r => r.salesFlats)).sum
    salesSemi := (df.map (fun r => r.salesSemi)).sum
    salesTerraced := (df.map (fun r => r.salesTerraced)).sum
    totalSales := (df.map (fun r => r.totalSales)).sum
    pctDetached := natPct ((df.map (fun r => r.salesDetached)).sum) ((df.map (fun r => r.totalSales)).sum)
    pctFlats := natPct ((df.map (fun r => r.salesFlats)).sum) ((df.map (fun r => r.totalSales)).sum)
    pctSemi := natPct ((df.map (fun r => r.salesSemi)).sum) ((df.map (fun r => r.totalSales)).sum)
    pctTerraced := natPct ((df.map (fun r => r.salesTerraced)).sum) ((df.map (fun r => r.totalSales)).sum)
    salesRate := natPct ((df.map (fun r => r.totalSales)).sum) (sumOptCol (df.map (fun r => r.totalDwellings))) }

/-- `calculate_national_totals` (task_5 lines 79-117): append the
synthetic national row to the regional frame (`pd.concat`). -/
def calculate_national_totals (df : List AnalysisRow) : List AnalysisRow :=
  df ++ [nationalRow df]

/-- The predicate of the filter `df['Region_Code'] != 'NATIONAL'` used by
`identify_maxima` to exclude the grand-total row. -/
def isNational (r : AnalysisRow) : Bool := r.regionCode == "NATIONAL"

/-- An output row of `identify_maxima`: the analysis row plus the five
boolean maximum-flag columns. -/
structure FlaggedRow where
  row : AnalysisRow
  maxDetached : Bool
  maxFlats : Bool
  maxSemi : Bool
  maxTerraced : Bool
  maxSalesRate : Bool
deriving DecidableEq, Repr

/-- The filter `df[df['Region_Code'] != 'NATIONAL']` of `identify_maxima`
(task_5 line 124): the non-aggregate (regional) rows. -/
def regionalRows (df : List AnalysisRow) : List AnalysisRow :=
  df.filter fun r => !(isNational r)

/-- `regional_only['Pct_Detached'].max()` (task_5 line 127). -/
def regionalMaxDetached (df : List AnalysisRow) : PFloat :=
  seriesMax ((regionalRows df).map (fun r => r.pctDetached))

/-- `regional_only['Pct_Flats'].max()` (task_5 line 128). -/
def regionalMaxFlats (df : List AnalysisRow) : PFloat :=
  seriesMax ((regionalRows df).map (fun r => r.pctFlats))

/-- `regional_only['Pct_Semi'].max()` (task_5 line 129). -/
def regionalMaxSemi (df : List AnalysisRow) : PFloat :=
  seriesMax ((regionalRows df).map (fun r => r.pctSemi))

/-- `regional_only['Pct_Terraced'].max()` (task_5 line 130). -/
def regionalMaxTerraced (df : List AnalysisRow) : PFloat :=
  seriesMax ((regionalRows df).map (fun r => r.pctTerraced))

/-- `regional_only['Sales_Rate'].max()` (task_5 line 131). -/
def regionalMaxSalesRate (df : List AnalysisRow) : PFloat :=
  seriesMax ((regionalRows df).map (fun r => r.salesRate))

/-- The flag assignment of `identify_maxima` (task_5 lines 134-138) for
one row of the whole frame: each flag compares the row's value `==` to the
regional maximum of its column. -/
def flagRow (df : List AnalysisRow) (r : AnalysisRow) : FlaggedRow :=
  { row := r
    maxDetached := peq r.pctDetached (regionalMaxDetached df)
    maxFlats := peq r.pctFlats (regionalMaxFlats df)
    maxSemi := peq r.pctSemi (regionalMaxSemi df)
    maxTerraced := peq r.pctTerraced (regionalMaxTerraced df)
    maxSalesRate := peq r.salesRate (regionalMaxSalesRate df) }

/-- `identify_maxima` (task_5 lines 120-151): per percentage column, take
the column maximum over the rows whose `Region_Code` is not `'NATIONAL'`,
then flag every row of the whole frame (the national row included) whose
value compares `==` to that maximum. -/
def identify_maxima (df : List AnalysisRow) : List FlaggedRow :=
  df.map (flagRow df)

/-- A row of the district pivot built by task_4's
`create_pivot_by_district` (left input of `match_with_lookup`). -/
structure PivotRow where
  district : String
  d : ℤ
  f : ℤ
  s : ℤ
  t : ℤ
  total : ℤ
deriving DecidableEq, Repr

/-- A row of the lookup table `census_dwelling_data_prepared.csv` read by
task_4; its region columns are nullable because task_3 writes them from a
left join that leaves unmatched districts null. -/
structure LookupRow where
  ladName : String
  regionCode : Option String
  regionName : Option String
deriving DecidableEq, Repr

/-- Python `str.strip()` then `str.upper()` on the character list of a
key: leading and trailing whitespace is removed and every character is
upper-cased. -/
def cleanChars (l : List Char) : List Char :=
  ((l.dropWhile Char.isWhitespace).reverse.dropWhile Char.isWhitespace).reverse.map Char.toUpper

/-- The key normalisation of `match_with_lookup` (task_4 lines 124-126):
`.str.strip().str.upper()` applied to a join key. -/
def cleanKey (x : String) : String := String.mk (cleanChars x.data)

/-- The left merge inside `match_with_lookup` (task_4 lines 129-134): the
district pivot joined to the lookup on the normalised name columns. -/
def task4_merged (pivot : List PivotRow) (lookup : List LookupRow) :
    List (PivotRow × Option LookupRow) :=
  leftJoin (fun p => cleanKey p.district) (fun lr => cleanKey lr.ladName) pivot lookup

/-- A row of the matched result of `match_with_lookup`. -/
structure MatchedRow where
  district : String
  ladName : String
  regionCode : Option String
  regionName : Option String
  d : ℤ
  f : ℤ
  s : ℤ
  t : ℤ
  total : ℤ
deriving DecidableEq, Repr

/-- The merged `Region_Name` of one joined row: null when the left row had
no lookup match, or when the matched lookup row itself has a null
`Region_Name`. -/
def mergedRegionName (pr : PivotRow × Option LookupRow) : Option String :=
  pr.2.bind (fun lr => lr.regionName)

/-- `match_with_lookup` (task_4 lines 121-160): left-join the pivot to the
lookup on normalised names, report the rows whose merged `Region_Name` is
null as the unmatched diagnostic (district plus its five counts), and keep
only the non-null rows in the matched result.  Returns
(matched result, unmatched diagnostic). -/
def match_with_lookup (pivot : List PivotRow) (lookup : List LookupRow) :
    List MatchedRow × List (String × ℤ × ℤ × ℤ × ℤ × ℤ) :=
  ((task4_merged pivot lookup).filterMap fun pr =>
      if (mergedRegionName pr).isSome then
        pr.2.map fun lr =>
          { district := pr.1.district
            ladName := lr.ladName
            regionCode := lr.regionCode
            regionName := lr.regionName
            d := pr.1.d, f := pr.1.f, s := pr.1.s, t := pr.1.t, total := pr.1.total }
      else none,
   ((task4_merged pivot lookup).filter fun pr => (mergedRegionName pr).isNone).map
      fun pr => (pr.1.district, pr.1.d, pr.1.f, pr.1.s, pr.1.t, pr.1.total))

/-- A row of the long census table `RM205-2021-2.csv` pivoted by task_3:
the two key columns, the category column and the observation value. -/
structure CensusRow where
  ladCode : String
  ladName : String
  category : String
  observation : ℤ
deriving DecidableEq, Repr

/-- The (index, columns) pair of one census row under task_3's
`DataFrame.pivot` call. -/
def censusPivotKey (r : CensusRow) : (String × String) × String :=
  ((r.ladCode, r.ladName), r.category)

/-- The row key (index) part only. -/
def censusRowKey (r : CensusRow) : String × String := (r.ladCode, r.ladName)

/-- `DataFrame.pivot` as called by task_3 (lines 24-28): one wide row per
distinct (code, name) key, carrying the (category, observation) pairs of
that key; pandas raises `ValueError` when an (index, columns) pair is
duplicated, modelled by the error branch. -/
def pivotCensus (rows : List CensusRow) :
    Except String (List ((String × String) × List (String × ℤ))) :=
  if (rows.map censusPivotKey).Nodup then
    .ok ((rows.map censusRowKey).dedup.map fun k =>
      (k, (rows.filter fun r => decide (censusRowKey r = k)).map
            fun r => (r.category, r.observation)))
  else
    .error "Index contains duplicate entries, cannot reshape"

/-- A row of the pivoted census table at task_3's merge (lines 54-59);
the three dwelling-count columns ride along, the join uses only
`LAD_Code`. -/
structure CensusWideRow where
  ladCode : String
  ladName : String
  sharedTwoSpaces : ℤ
  sharedThreePlusSpaces : ℤ
  unsharedDwelling : ℤ
deriving DecidableEq, Repr

/-- A row of the region lookup CSV used by task_3's merge. -/
structure RegionLookupRow where
  lad23cd : String
  rgn23cd : String
  rgn23nm : String
deriving DecidableEq, Repr

/-- Task_3's merge (lines 54-59): left join of the pivoted census table to
the region lookup on `LAD_Code = LAD23CD`, with no key normalisation. -/
def task3_merge (cw : List CensusWideRow) (lk : List RegionLookupRow) :
    List (CensusWideRow × Option RegionLookupRow) :=
  leftJoin (fun r => r.ladCode) (fun r => r.lad23cd) cw lk

/-! ### Concrete sample tables used to witness the theorems -/

/-- A merged row with one detached sale out of one total sale and two
dwellings. -/
def sampleMergedRow : MergedRow :=
  { regionCode := "E1", regionName := "North"
    unsharedDwellings := some 2, sharedDwellings := some 0, totalDwellings := some 2
    d := 1, f := 0, s := 0, t := 0, total := 1 }

/-- A merged row whose denominator `Total_Dwellings` is zero while
`Total_Sales` is positive. -/
def zeroDwellRow : MergedRow :=
  { regionCode := "X", regionName := "X"
    unsharedDwellings := some 0, sharedDwellings := some 0, totalDwellings := some 0
    d := 1, f := 0, s := 0, t := 0, total := 1 }

/-- A merged row with more sales than dwellings. -/
def overSoldRow : MergedRow :=
  { regionCode := "Y", regionName := "Y"
    unsharedDwellings := some 1, sharedDwellings := some 0, totalDwellings := some 1
    d := 2, f := 0, s := 0, t := 0, total := 2 }

/-- A two-row regional analysis table with concrete counts and finite
percentage values. -/
def sampleAnalysisDf : List AnalysisRow :=
  [{ regionCode := "E1", regionName := "North"
     unsharedDwellings := some 1, sharedDwellings := some 2, totalDwellings := some 3
     salesDetached := 4, salesFlats := 5, salesSemi := 6, salesTerraced := 7, totalSales := 22
     pctDetached := .Finite 10, pctFlats := .Finite 20, pctSemi := .Finite 30
     pctTerraced := .Finite 40, salesRate := .Finite 50 },
   { regionCode := "E2", regionName := "South"
     unsharedDwellings := some 4, sharedDwellings := some 5, totalDwellings := some 9
     salesDetached := 1, salesFlats := 2, salesSemi := 3, salesTerraced := 4, totalSales := 10
     pctDetached := .Finite 60, pctFlats := .Finite 5, pctSemi := .Finite 6
     pctTerraced := .Finite 7, salesRate := .Finite 8 }]

/-- A national row whose percentages tie the regional maxima of
`sampleAnalysisDf`. -/
def sampleNationalRow : AnalysisRow :=
  { regionCode := "NATIONAL", regionName := "England & Wales"
    unsharedDwellings := some 5, sharedDwellings := some 7, totalDwellings := some 12
    salesDetached := 5, salesFlats := 7, salesSemi := 9, salesTerraced := 11, totalSales := 32
    pctDetached := .Finite 60, pctFlats := .Finite 20, pctSemi := .Finite 30
    pctTerraced := .Finite 40, salesRate := .Finite 50 }

/-- The sample analysis table with the national row appended. -/
def sampleDfWithNational : List AnalysisRow :=
  sampleAnalysisDf ++ [sampleNationalRow]

/-- A one-row dwelling table for the merge witnesses. -/
def sampleDwells : List DwellRow := [⟨"E1", "North", 5, 6, 11⟩]

/-- A one-row sales table whose key matches nothing in
`sampleDwells`. -/
def sampleSales : List SalesRow := [⟨"E2", "South", 1, 1, 1, 1, 4⟩]

/-- A one-row district pivot. -/
def samplePivot : List PivotRow := [⟨"Bristol", 1, 2, 3, 4, 10⟩]

/-- A one-row lookup whose district name matches nothing in
`samplePivot`. -/
def sampleLookup : List LookupRow := [⟨"Leeds", some "E12000003", some "Yorkshire"⟩]

/-- A census long table with a duplicated (key, category) pair. -/
def dupCensusRows : List CensusRow :=
  [⟨"E06000001", "Hartlepool", "Unshared", 41000⟩,
   ⟨"E06000001", "Hartlepool", "Unshared", 42000⟩]

/-! ### Helper lemmas -/

theorem round_le_round_q {x y : ℚ} (h : x ≤ y) : round x ≤ round y := by
  rw [round_eq, round_eq]
  exact Int.floor_mono (by linarith)

theorem round_q_intCast (n : ℤ) : round ((n : ℚ)) = n := round_intCast n

theorem round2_finite (q : ℚ) :
    round2 (.Finite q) = .Finite (((round (q * 100) : ℤ) : ℚ) / 100) := rfl

theorem fillna0_finite (q : ℚ) : fillna0 (.Finite q) = .Finite q := rfl

theorem round2_finite_range {q : ℚ} (h0 : 0 ≤ q) (h100 : q ≤ 100) :
    pctInRange (fillna0 (round2 (.Finite q))) := by
  rw [round2_finite, fillna0_finite]
  have h1 : (0 : ℤ) ≤ round (q * 100) := by
    have := round_le_round_q (mul_nonneg h0 (by norm_num : (0:ℚ) ≤ 100))
    simpa using this
  have h2 : round (q * 100) ≤ 10000 := by
    have hq : q * 100 ≤ ((10000 : ℤ) : ℚ) := by push_cast; linarith
    have := round_le_round_q hq
    rwa [round_q_intCast] at this
  constructor
  · positivity
  · rw [div_le_iff₀ (by norm_num : (0:ℚ) < 100)]
    calc ((round (q * 100) : ℤ) : ℚ) ≤ ((10000 : ℤ) : ℚ) := by exact_mod_cast h2
      _ = 100 * 100 := by norm_num

theorem pdiv_finite_finite (x y : ℚ) :
    pdiv (.Finite x) (.Finite y) =
      if y = 0 then (if x = 0 then .NaN else if 0 < x then .PInf else .NInf)
      else .Finite (x / y) := rfl

theorem pctOf_range {num den : ℤ} (h0 : 0 ≤ num) (hle : num ≤ den) (hpos : 0 < den) :
    pctInRange (pctOf num den) := by
  have hden : ((den : ℤ) : ℚ) ≠ 0 := by
    exact_mod_cast (by omega : den ≠ 0)
  unfold pctOf
  rw [pdiv_finite_finite, if_neg hden]
  show pctInRange (fillna0 (round2 (.Finite (((num : ℚ)) / ((den : ℚ)) * 100))))
  have hq0 : (0 : ℚ) ≤ ((num : ℚ)) / ((den : ℚ)) := by
    apply div_nonneg
    · exact_mod_cast h0
    · exact_mod_cast le_of_lt hpos
  have hq1 : ((num : ℚ)) / ((den : ℚ)) ≤ 1 := by
    rw [div_le_one (by exact_mod_cast hpos)]
    exact_mod_cast hle
  exact round2_finite_range (by linarith) (by linarith)

theorem pctOf_zero_zero : pctOf 0 0 = .Finite 0 := by
  unfold pctOf
  rw [pdiv_finite_finite]
  norm_num
  rfl

theorem pmax_eq_or (a b : PFloat) : pmax a b = a ∨ pmax a b = b := by
  cases a <;> cases b <;> simp only [pmax] <;> first
    | exact Or.inl rfl
    | exact Or.inr rfl
    | exact Or.inl trivial
    | exact Or.inr trivial
    | (split
       · exact Or.inr rfl
       · exact Or.inl rfl)

theorem pmax_nan_right (a : PFloat) : pmax a .NaN = a := by
  cases a <;> rfl

theorem seriesMax_mem : ∀ (xs : List PFloat), xs ≠ [] → (∀ x ∈ xs, x ≠ .NaN) →
    seriesMax xs ∈ xs
  | [], hne, _ => absurd rfl hne
  | [x], _, _ => by
      simp only [seriesMax, List.foldr, pmax_nan_right, List.mem_singleton]
  | x :: y :: xs, _, hnn => by
      have ih := seriesMax_mem (y :: xs) (by simp)
        (fun z hz => hnn z (List.mem_cons_of_mem x hz))
      have hfold : seriesMax (x :: y :: xs) = pmax x (seriesMax (y :: xs)) := rfl
      rcases pmax_eq_or x (seriesMax (y :: xs)) with h | h
      · rw [hfold, h]; exact List.mem_cons_self x _
      · rw [hfold, h]; exact List.mem_cons_of_mem x ih

theorem peq_refl {a : PFloat} (h : a ≠ .NaN) : peq a a = true := by
  cases a with
  | Finite q => simp [peq]
  | PInf => rfl
  | NInf => rfl
  | NaN => exact absurd rfl h

theorem peq_true_eq : ∀ {a b : PFloat}, peq a b = true → a = b := by
  intro a b h
  cases a <;> cases b <;> simp_all [peq]

theorem leftJoin_mem_unmatched {α β K : Type} [DecidableEq K] {ks : α → K} {kr : β → K}
    {ls : List α} {rs : List β} {l : α}
    (hl : l ∈ ls) (hnm : ∀ r ∈ rs, kr r ≠ ks l) :
    (l, (none : Option β)) ∈ leftJoin ks kr ls rs := by
  have hfil : rs.filter (fun r => decide (kr r = ks l)) = [] := by
    rw [List.filter_eq_nil_iff]
    intro r hr
    simpa using hnm r hr
  unfold leftJoin
  exact List.mem_flatMap.2 ⟨l, hl, by rw [hfil]; exact List.mem_singleton.2 rfl⟩

theorem leftJoin_mem_matched {α β K : Type} [DecidableEq K] {ks : α → K} {kr : β → K}
    {ls : List α} {rs : List β} {l : α} {r : β}
    (hl : l ∈ ls) (hr : r ∈ rs) (hk : kr r = ks l) :
    (l, some r) ∈ leftJoin ks kr ls rs := by
  have hrf : r ∈ rs.filter (fun r => decide (kr r = ks l)) :=
    List.mem_filter.2 ⟨hr, by simpa using hk⟩
  unfold leftJoin
  refine List.mem_flatMap.2 ⟨l, hl, ?_⟩
  cases hfe : rs.filter (fun r => decide (kr r = ks l)) with
  | nil => rw [hfe] at hrf; exact absurd hrf (List.not_mem_nil r)
  | cons a as =>
      rw [hfe] at hrf
      exact List.mem_map_of_mem (fun r => (l, some r)) hrf

theorem leftJoin_matched_inv {α β K : Type} [DecidableEq K] {ks : α → K} {kr : β → K}
    {ls : List α} {rs : List β} {l : α} {r : β}
    (h : (l, some r) ∈ leftJoin ks kr ls rs) :
    l ∈ ls ∧ r ∈ rs ∧ kr r = ks l := by
  unfold leftJoin at h
  obtain ⟨a, ha, hmem⟩ := List.mem_flatMap.1 h
  revert hmem
  cases hfe : rs.filter (fun r => decide (kr r = ks a)) with
  | nil =>
      intro hmem
      rw [List.mem_singleton] at hmem
      injection hmem with _ hsnd
      exact absurd hsnd (by simp)
  | cons b bs =>
      intro hmem
      obtain ⟨r', hr', hEq⟩ := List.mem_map.1 hmem
      injection hEq with h1 h2
      injection h2 with h2
      have hrf : r' ∈ rs.filter (fun r => decide (kr r = ks a)) := by rw [hfe]; exact hr'
      have hmf := List.mem_filter.1 hrf
      refine ⟨h1 ▸ ha, h2 ▸ hmf.1, ?_⟩
      have hk : kr r' = ks a := by simpa using hmf.2
      rw [← h2, hk, h1]

theorem outerJoin_eq {α β K : Type} [DecidableEq K] (ks : α → K) (kr : β → K)
    (ls : List α) (rs : List β) :
    outerJoin ks kr ls rs =
      (leftJoin ks kr ls rs).map (fun p => (some p.1, p.2)) ++
      ((rs.filter fun r => (ls.filter fun l => decide (ks l = kr r)).isEmpty).map
        fun r => ((none : Option α), some r)) := by
  unfold outerJoin leftJoin
  congr 1
  rw [List.map_flatMap]
  apply List.flatMap_congr ?_
  intro l _
  cases hfe : rs.filter (fun r => decide (kr r = ks l)) with
  | nil => simp
  | cons b bs => simp

theorem outerJoin_mem_left_unmatched {α β K : Type} [DecidableEq K] {ks : α → K} {kr : β → K}
    {ls : List α} {rs : List β} {l : α}
    (hl : l ∈ ls) (hnm : ∀ r ∈ rs, kr r ≠ ks l) :
    ((some l : Option α), (none : Option β)) ∈ outerJoin ks kr ls rs := by
  rw [outerJoin_eq]
  exact List.mem_append_left _
    (List.mem_map.2 ⟨(l, none), leftJoin_mem_unmatched hl hnm, rfl⟩)

theorem outerJoin_mem_right_only {α β K : Type} [DecidableEq K] {ks : α → K} {kr : β → K}
    {ls : List α} {rs : List β} {r : β}
    (hr : r ∈ rs) (hnm : ∀ l ∈ ls, ks l ≠ kr r) :
    ((none : Option α), some r) ∈ outerJoin ks kr ls rs := by
  rw [outerJoin_eq]
  refine List.mem_append_right _ (List.mem_map.2 ⟨r, List.mem_filter.2 ⟨hr, ?_⟩, rfl⟩)
  rw [List.isEmpty_iff, List.filter_eq_nil_iff]
  intro l hl
  simpa using hnm l hl

theorem outerJoin_pair_inv {α β K : Type} [DecidableEq K] {ks : α → K} {kr : β → K}
    {ls : List α} {rs : List β} {l : α} {r : β}
    (h : (some l, some r) ∈ outerJoin ks kr ls rs) :
    l ∈ ls ∧ r ∈ rs ∧ kr r = ks l := by
  rw [outerJoin_eq] at h
  rcases List.mem_append.1 h with h1 | h2
  · obtain ⟨p, hp, hEq⟩ := List.mem_map.1 h1
    injection hEq with hfst hsnd
    injection hfst with hfst
    have hpe : p = (l, some r) := Prod.ext hfst hsnd
    rw [hpe] at hp
    exact leftJoin_matched_inv hp
  · obtain ⟨r', _, hEq⟩ := List.mem_map.1 h2
    injection hEq with hfst _
    exact absurd hfst (by simp)

theorem filter_key_length_le_one {β K : Type} [DecidableEq K] {kr : β → K} :
    ∀ {rs : List β}, (rs.map kr).Nodup → ∀ k : K,
      (rs.filter fun r => decide (kr r = k)).length ≤ 1
  | [], _, _ => by simp
  | r :: rs, h, k => by
      rw [List.map_cons, List.nodup_cons] at h
      by_cases hk : kr r = k
      · rw [List.filter_cons_of_pos (by simpa using hk)]
        have hnil : rs.filter (fun r' => decide (kr r' = k)) = [] := by
          rw [List.filter_eq_nil_iff]
          intro r' hr'
          simp only [decide_eq_true_eq]
          intro hc
          have hmem : kr r' ∈ rs.map kr := List.mem_map_of_mem kr hr'
          rw [hc, ← hk] at hmem
          exact h.1 hmem
        rw [hnil]
        simp
      · rw [List.filter_cons_of_neg (by simpa using hk)]
        exact filter_key_length_le_one h.2 k

theorem leftJoin_length {α β K : Type} [DecidableEq K] (ks : α → K) (kr : β → K) :
    ∀ (ls : List α) (rs : List β), (rs.map kr).Nodup →
      (leftJoin ks kr ls rs).length = ls.length
  | [], _, _ => rfl
  | l :: ls, rs, h => by
      have htail := leftJoin_length ks kr ls rs h
      unfold leftJoin at htail ⊢
      rw [List.flatMap_cons, List.length_append]
      have hbranch :
          (match rs.filter (fun r => decide (kr r = ks l)) with
            | [] => [(l, (none : Option β))]
            | ms => ms.map fun r => (l, some r)).length = 1 := by
        cases hfe : rs.filter (fun r => decide (kr r = ks l)) with
        | nil => rfl
        | cons a as =>
            have hle := filter_key_length_le_one h (ks l)
            rw [hfe] at hle
            simp only [List.length_cons] at hle
            have : as = [] := by
              cases as with
              | nil => rfl
              | cons b bs => simp at hle
            subst this
            rfl
      rw [hbranch, htail]
      simp [Nat.add_comm]

theorem outerJoin_length {α β K : Type} [DecidableEq K] (ks : α → K) (kr : β → K)
    (ls : List α) (rs : List β)
    (hl : (ls.map ks).Nodup) (hr : (rs.map kr).Nodup) :
    (outerJoin ks kr ls rs).length = ((ls.map ks) ++ (rs.map kr)).toFinset.card := by
  have hp : ∀ r : β, ((ls.filter fun l => decide (ks l = kr r)).isEmpty = true ↔
      ∀ l ∈ ls, ks l ≠ kr r) := by
    intro r
    rw [List.isEmpty_iff, List.filter_eq_nil_iff]
    simp
  rw [outerJoin_eq, List.length_append, List.length_map, leftJoin_length ks kr ls rs hr,
    List.length_map]
  have hA : (ls.map ks).toFinset.card = ls.length := by
    rw [List.toFinset_card_of_nodup hl, List.length_map]
  have nodupRO :
      (((rs.filter fun r => (ls.filter fun l => decide (ks l = kr r)).isEmpty).map kr)).Nodup :=
    (List.Sublist.map kr (List.filter_sublist rs)).nodup hr
  have setRO :
      ((rs.filter fun r => (ls.filter fun l => decide (ks l = kr r)).isEmpty).map kr).toFinset =
        (rs.map kr).toFinset \ (ls.map ks).toFinset := by
    ext k
    simp only [List.mem_toFinset, Finset.mem_sdiff, List.mem_map, List.mem_filter]
    constructor
    · rintro ⟨r, ⟨hrm, hpr⟩, rfl⟩
      refine ⟨⟨r, hrm, rfl⟩, ?_⟩
      rintro ⟨l, hlm, hEq⟩
      exact ((hp r).1 hpr) l hlm hEq
    · rintro ⟨⟨r, hrm, rfl⟩, hnot⟩
      exact ⟨r, ⟨hrm, (hp r).2 (fun l hlm hEq => hnot ⟨l, hlm, hEq⟩)⟩, rfl⟩
  have cardRO :
      (rs.filter fun r => (ls.filter fun l => decide (ks l = kr r)).isEmpty).length =
        ((rs.map kr).toFinset \ (ls.map ks).toFinset).card := by
    rw [← setRO, List.toFinset_card_of_nodup nodupRO, List.length_map]
  have hcard := Finset.card_sdiff_add_card (rs.map kr).toFinset (ls.map ks).toFinset
  rw [List.toFinset_append, cardRO, ← hA]
  rw [Finset.union_comm] at hcard
  omega

theorem mem_regionalRows {df : List AnalysisRow} {r : AnalysisRow} :
    r ∈ regionalRows df ↔ r ∈ df ∧ isNational r = false := by
  simp [regionalRows, List.mem_filter]

theorem flagRow_row (df : List AnalysisRow) (r : AnalysisRow) : (flagRow df r).row = r := rfl

theorem maxflag_lifted (df : List AnalysisRow) (pct : AnalysisRow → PFloat)
    (flagAcc : FlaggedRow → Bool)
    (hconn : ∀ r, flagAcc (flagRow df r) = peq (pct r) (seriesMax ((regionalRows df).map pct)))
    (hne : regionalRows df ≠ [])
    (hnn : ∀ r ∈ regionalRows df, pct r ≠ .NaN) :
    (∃ fr ∈ identify_maxima df, isNational fr.row = false ∧ flagAcc fr = true) ∧
    (∀ fr ∈ identify_maxima df, flagAcc fr = true →
        pct fr.row = seriesMax ((regionalRows df).map pct)) ∧
    (∀ fr ∈ identify_maxima df, isNational fr.row = false →
        pct fr.row = seriesMax ((regionalRows df).map pct) → flagAcc fr = true) := by
  have hmapne : (regionalRows df).map pct ≠ [] := by
    intro hc
    exact hne (List.map_eq_nil_iff.1 hc)
  have hmapnn : ∀ x ∈ (regionalRows df).map pct, x ≠ .NaN := by
    intro x hx
    obtain ⟨r, hr, rfl⟩ := List.mem_map.1 hx
    exact hnn r hr
  have hmem := seriesMax_mem _ hmapne hmapnn
  obtain ⟨ra, hra, hval⟩ := List.mem_map.1 hmem
  refine ⟨⟨flagRow df ra, ?_, ?_, ?_⟩, ?_, ?_⟩
  · exact List.mem_map_of_mem (flagRow df) (mem_regionalRows.1 hra).1
  · rw [flagRow_row]
    exact (mem_regionalRows.1 hra).2
  · rw [hconn, hval]
    exact peq_refl (hval ▸ hnn ra hra)
  · intro fr hfr hflag
    obtain ⟨r, _, rfl⟩ := List.mem_map.1 hfr
    rw [hconn] at hflag
    rw [flagRow_row]
    exact peq_true_eq hflag
  · intro fr hfr hreg hmax
    obtain ⟨r, hrdf, rfl⟩ := List.mem_map.1 hfr
    rw [flagRow_row] at hreg hmax
    rw [hconn, hmax]
    refine peq_refl ?_
    rw [← hmax]
    exact hnn r (mem_regionalRows.2 ⟨hrdf, hreg⟩)

theorem lookup_eq_of_nodup_keys :
    ∀ (l : List (String × ℤ)) (c : String) (v : ℤ),
      (l.map Prod.fst).Nodup → (c, v) ∈ l → l.lookup c = some v
  | [], _, _, _, hmem => absurd hmem (List.not_mem_nil _)
  | (c', v') :: tail, c, v, hnd, hmem => by
      rw [List.map_cons, List.nodup_cons] at hnd
      rcases List.mem_cons.1 hmem with hEq | htail
      · injection hEq with h1 h2
        subst h1
        subst h2
        simp [List.lookup]
      · have hcne : c ≠ c' := by
          intro hcc
          have hm : c ∈ tail.map Prod.fst := List.mem_map_of_mem Prod.fst htail
          rw [hcc] at hm
          exact hnd.1 hm
        have hbeq : (c == c') = false := beq_eq_false_iff_ne.2 hcne
        simp only [List.lookup, hbeq]
        exact lookup_eq_of_nodup_keys tail c v hnd.2 htail

theorem filtered_categories_nodup (rows : List CensusRow) (k : String × String)
    (h : (rows.map censusPivotKey).Nodup) :
    (((rows.filter fun r => decide (censusRowKey r = k)).map
        fun r => (r.category, r.observation)).map Prod.fst).Nodup := by
  rw [List.map_map]
  have hrows : rows.Nodup := List.Nodup.of_map censusPivotKey h
  have hfil : (rows.filter fun r => decide (censusRowKey r = k)).Nodup :=
    (List.filter_sublist rows).nodup hrows
  refine List.Nodup.map_on ?_ hfil
  intro x hx y hy hcat
  have hxk : censusRowKey x = k := by
    simpa using (List.mem_filter.1 hx).2
  have hyk : censusRowKey y = k := by
    simpa using (List.mem_filter.1 hy).2
  have hkk : censusRowKey x = censusRowKey y := hxk.trans hyk.symm
  have hcat' : x.category = y.category := hcat
  have hpk : censusPivotKey x = censusPivotKey y := by
    unfold censusPivotKey
    unfold censusRowKey at hkk
    rw [hkk, hcat']
  exact List.inj_on_of_nodup_map h ((List.mem_filter.1 hx).1) ((List.mem_filter.1 hy).1) hpk

theorem pct_pipeline_zero : fillna0 (round2 (pmul100 (.Finite 0))) = .Finite 0 := by
  simp [pmul100, round2, fillna0]

theorem salesRate_total_zero (m : MergedRow) (h : m.total = 0) :
    (calculate_percentages_row m).salesRate = .Finite 0 := by
  show fillna0 (round2 (pmul100 (pdiv (.Finite (m.total : ℚ)) (optToPFloat m.totalDwellings)))) = _
  rw [h]
  cases m.totalDwellings with
  | none => rfl
  | some td =>
      show fillna0 (round2 (pmul100 (pdiv (.Finite ((0 : ℤ) : ℚ)) (.Finite (td : ℚ))))) = _
      rw [pdiv_finite_finite]
      by_cases htd : ((td : ℤ) : ℚ) = 0
      · rw [if_pos htd, if_pos (by norm_num)]
        rfl
      · rw [if_neg htd]
        rw [show ((0 : ℤ) : ℚ) / ((td : ℤ) : ℚ) = 0 from by norm_num]
        exact pct_pipeline_zero

theorem sumOptCol_all_some :
    ∀ (xs : List (Option ℤ)), (∀ x ∈ xs, x.isSome) →
      sumOptCol xs = (xs.map (fun x => x.getD 0)).sum
  | [], _ => rfl
  | x :: xs, h => by
      have hx := h x (List.mem_cons_self x xs)
      cases x with
      | none => simp at hx
      | some a =>
          have ih := sumOptCol_all_some xs (fun y hy => h y (List.mem_cons_of_mem _ hy))
          unfold sumOptCol at ih ⊢
          simp only [List.filterMap_cons, id, List.sum_cons, List.map_cons, Option.getD_some]
          rw [ih]

/-! ### Claim theorems -/

/-- C1, counterexample: on a merged row whose `Total_Dwellings` is zero
while `Total_Sales` is one, `calculate_percentages` leaves positive
infinity in `Sales_Rate` instead of the zero the claim requires; and on a
row with more sales than dwellings the rate is 200, outside [0, 100]
although the denominator is strictly positive. -/
theorem C1_zero_denominator_cex :
    zeroDwellRow.totalDwellings = some 0 ∧
    (calculate_percentages_row zeroDwellRow).salesRate = PFloat.PInf ∧
    overSoldRow.totalDwellings = some 1 ∧
    (calculate_percentages_row overSoldRow).salesRate = PFloat.Finite 200 ∧
    ¬ pctInRange (PFloat.Finite 200) := by
  refine ⟨rfl, ?_, rfl, ?_, ?_⟩
  · show fillna0 (round2 (pmul100 (pdiv (.Finite ((1:ℤ):ℚ)) (.Finite ((0:ℤ):ℚ))))) = PFloat.PInf
    rw [pdiv_finite_finite, if_pos (by norm_num : ((0:ℤ):ℚ) = 0),
      if_neg (by norm_num : ¬ ((1:ℤ):ℚ) = 0), if_pos (by norm_num : (0:ℚ) < ((1:ℤ):ℚ))]
    rfl
  · show fillna0 (round2 (pmul100 (pdiv (.Finite ((2:ℤ):ℚ)) (.Finite ((1:ℤ):ℚ))))) = PFloat.Finite 200
    rw [pdiv_finite_finite, if_neg (by norm_num : ¬ ((1:ℤ):ℚ) = 0)]
    rw [show ((2:ℤ):ℚ) / ((1:ℤ):ℚ) = 2 from by norm_num]
    show fillna0 (round2 (.Finite ((2:ℚ) * 100))) = PFloat.Finite 200
    rw [round2_finite, fillna0_finite]
    rw [show ((2:ℚ) * 100) * 100 = ((20000:ℤ):ℚ) from by norm_num, round_q_intCast]
    simp only [PFloat.Finite.injEq]
    norm_num
  · norm_num [pctInRange]

/-- C1 (amended): on a merged row with non-negative sales counts whose
`Total_Sales` is the sum of the four components, each `Pct_*` column is
exactly 0 when `Total_Sales = 0` and is a finite value in [0, 100] when
`Total_Sales > 0`; `Sales_Rate` is exactly 0 when `Total_Sales = 0` (the
0/0 case) and also when `Total_Dwellings` is null, and is a finite value
in [0, 100] when `0 < Total_Dwellings` and `Total_Sales ≤ Total_Dwellings`;
but when `Total_Dwellings = 0 < Total_Sales` the code leaves `inf` in the
output, and when `Total_Dwellings < Total_Sales` the rate exceeds 100
(see the counterexample). -/
theorem C1_percentage_bounds_amended (m : MergedRow)
    (hd : 0 ≤ m.d) (hf : 0 ≤ m.f) (hs : 0 ≤ m.s) (ht : 0 ≤ m.t)
    (hsum : m.total = m.d + m.f + m.s + m.t) :
    (m.total = 0 →
      (calculate_percentages_row m).pctDetached = .Finite 0 ∧
      (calculate_percentages_row m).pctFlats = .Finite 0 ∧
      (calculate_percentages_row m).pctSemi = .Finite 0 ∧
      (calculate_percentages_row m).pctTerraced = .Finite 0 ∧
      (calculate_percentages_row m).salesRate = .Finite 0) ∧
    (0 < m.total →
      pctInRange (calculate_percentages_row m).pctDetached ∧
      pctInRange (calculate_percentages_row m).pctFlats ∧
      pctInRange (calculate_percentages_row m).pctSemi ∧
      pctInRange (calculate_percentages_row m).pctTerraced) ∧
    (∀ td : ℤ, m.totalDwellings = some td → 0 < td → m.total ≤ td →
      pctInRange (calculate_percentages_row m).salesRate) ∧
    (m.totalDwellings = none → (calculate_percentages_row m).salesRate = .Finite 0) := by
  refine ⟨?_, ?_, ?_, ?_⟩
  · intro htz
    have hd0 : m.d = 0 := by omega
    have hf0 : m.f = 0 := by omega
    have hs0 : m.s = 0 := by omega
    have ht0 : m.t = 0 := by omega
    refine ⟨?_, ?_, ?_, ?_, salesRate_total_zero m htz⟩
    · show pctOf m.d m.total = _
      rw [hd0, htz]; exact pctOf_zero_zero
    · show pctOf m.f m.total = _
      rw [hf0, htz]; exact pctOf_zero_zero
    · show pctOf m.s m.total = _
      rw [hs0, htz]; exact pctOf_zero_zero
    · show pctOf m.t m.total = _
      rw [ht0, htz]; exact pctOf_zero_zero
  · intro htp
    exact ⟨pctOf_range hd (by omega) htp, pctOf_range hf (by omega) htp,
      pctOf_range hs (by omega) htp, pctOf_range ht (by omega) htp⟩
  · intro td htd htdpos hle
    have h0t : 0 ≤ m.total := by omega
    show pctInRange
      (fillna0 (round2 (pmul100 (pdiv (.Finite (m.total : ℚ)) (optToPFloat m.totalDwellings)))))
    rw [htd]
    exact pctOf_range h0t hle htdpos
  · intro hnone
    show fillna0 (round2 (pmul100 (pdiv (.Finite (m.total : ℚ)) (optToPFloat m.totalDwellings)))) = _
    rw [hnone]
    rfl

/-- C1, witness: the amended theorem applied to a concrete row with one
sale out of two dwellings. -/
theorem C1_percentage_bounds_witness :
    (0 < sampleMergedRow.total ∧ sampleMergedRow.totalDwellings = some 2) ∧
    pctInRange (calculate_percentages_row sampleMergedRow).pctDetached ∧
    pctInRange (calculate_percentages_row sampleMergedRow).salesRate := by
  have h := C1_percentage_bounds_amended sampleMergedRow (by decide) (by decide) (by decide)
    (by decide) (by decide)
  exact ⟨⟨by decide, by decide⟩, (h.2.1 (by decide)).1, h.2.2.1 2 rfl (by decide) (by decide)⟩

/-- C3: with only non-aggregate input rows and no null dwelling entries,
`calculate_national_totals` appends exactly one synthetic row with the
sentinel key `'NATIONAL'`, leaving the input rows unchanged, and every
numeric count column of that row is the plain sum of the column over the
input rows (an independent sum, so each row is counted exactly once). -/
theorem C3_national_totals (df : List AnalysisRow)
    (hna : ∀ r ∈ df, isNational r = false)
    (hsome : ∀ r ∈ df, r.totalDwellings.isSome ∧ r.unsharedDwellings.isSome ∧
      r.sharedDwellings.isSome) :
    calculate_national_totals df = df ++ [nationalRow df] ∧
    (calculate_national_totals df).length = df.length + 1 ∧
    (nationalRow df).regionCode = "NATIONAL" ∧
    (nationalRow df).salesDetached = (df.map (fun r => r.salesDetached)).sum ∧
    (nationalRow df).salesFlats = (df.map (fun r => r.salesFlats)).sum ∧
    (nationalRow df).salesSemi = (df.map (fun r => r.salesSemi)).sum ∧
    (nationalRow df).salesTerraced = (df.map (fun r => r.salesTerraced)).sum ∧
    (nationalRow df).totalSales = (df.map (fun r => r.totalSales)).sum ∧
    (nationalRow df).totalDwellings = some ((df.map (fun r => r.totalDwellings.getD 0)).sum) ∧
    (nationalRow df).unsharedDwellings =
      some ((df.map (fun r => r.unsharedDwellings.getD 0)).sum) ∧
    (nationalRow df).sharedDwellings = some ((df.map (fun r => r.sharedDwellings.getD 0)).sum) := by
  have hproj : ∀ (f : AnalysisRow → Option ℤ), (∀ r ∈ df, (f r).isSome) →
      sumOptCol (df.map f) = (df.map (fun r => (f r).getD 0)).sum := by
    intro f hall
    rw [sumOptCol_all_some _ (by
      intro x hx
      obtain ⟨r, hr, rfl⟩ := List.mem_map.1 hx
      exact hall r hr), List.map_map]
    rfl
  refine ⟨rfl, by simp [calculate_national_totals], rfl, rfl, rfl, rfl, rfl, rfl, ?_, ?_, ?_⟩
  · show some (sumOptCol (df.map fun r => r.totalDwellings)) = _
    rw [hproj _ (fun r hr => (hsome r hr).1)]
  · show some (sumOptCol (df.map fun r => r.unsharedDwellings)) = _
    rw [hproj _ (fun r hr => (hsome r hr).2.1)]
  · show some (sumOptCol (df.map fun r => r.sharedDwellings)) = _
    rw [hproj _ (fun r hr => (hsome r hr).2.2)]

/-- C3, witness: the theorem applied to the concrete two-row table. -/
theorem C3_national_totals_witness :
    (nationalRow sampleAnalysisDf).totalSales =
      (sampleAnalysisDf.map (fun r => r.totalSales)).sum ∧
    (nationalRow sampleAnalysisDf).totalDwellings =
      some ((sampleAnalysisDf.map (fun r => r.totalDwellings.getD 0)).sum) ∧
    (nationalRow sampleAnalysisDf).totalSales = 32 := by
  have h := C3_national_totals sampleAnalysisDf (by decide) (by decide)
  exact ⟨h.2.2.2.2.2.2.2.1, h.2.2.2.2.2.2.2.2.1, by decide⟩

/-- C4, counterexample: a key present only in the sales table keeps its
missing dwelling-side numeric columns null in the merged output; they are
not filled with zero, so the claim's "every key present on only one side
has its missing numeric columns filled with zero" fails. -/
theorem C4_outer_fill_cex :
    ((merge_datasets [] [⟨"E1", "R1", 1, 2, 3, 4, 10⟩]).map (fun m => m.totalDwellings)) =
      [none] ∧
    ((none : Option ℤ) ≠ some 0) := by
  exact ⟨rfl, by simp⟩

/-- C4 (amended): in `merge_datasets`, every dwellings-side key with no
sales match yields a merged row that keeps its dwelling columns and has
all five sales columns `D, F, S, T, Total` equal to integer 0 (zero-filled,
not null); keys present only in the sales table instead keep their
dwelling columns null (see the counterexample). -/
theorem C4_outer_fill_amended (dws : List DwellRow) (sls : List SalesRow) (l : DwellRow)
    (hl : l ∈ dws) (hnm : ∀ r ∈ sls, slKey r ≠ dwKey l) :
    ∃ m ∈ merge_datasets dws sls,
      m.regionCode = l.regionCode ∧ m.regionName = l.regionName ∧
      m.unsharedDwellings = some l.unsharedDwellings ∧
      m.sharedDwellings = some l.sharedDwellings ∧
      m.totalDwellings = some l.totalDwellings ∧
      m.d = 0 ∧ m.f = 0 ∧ m.s = 0 ∧ m.t = 0 ∧ m.total = 0 := by
  refine ⟨mergeRows (some l, none), ?_, rfl, rfl, rfl, rfl, rfl, rfl, rfl, rfl, rfl, rfl⟩
  exact List.mem_map_of_mem mergeRows (outerJoin_mem_left_unmatched hl hnm)

/-- C4, witness: the amended theorem applied to concrete one-row tables
with disjoint keys. -/
theorem C4_outer_fill_witness :
    ((⟨"E1", "North", 5, 6, 11⟩ : DwellRow) ∈ sampleDwells) ∧
    (∃ m ∈ merge_datasets sampleDwells sampleSales,
      m.regionCode = "E1" ∧ m.regionName = "North" ∧
      m.unsharedDwellings = some 5 ∧ m.sharedDwellings = some 6 ∧
      m.totalDwellings = some 11 ∧
      m.d = 0 ∧ m.f = 0 ∧ m.s = 0 ∧ m.t = 0 ∧ m.total = 0) := by
  exact ⟨by decide, C4_outer_fill_amended sampleDwells sampleSales
    ⟨"E1", "North", 5, 6, 11⟩ (by decide) (by decide)⟩

/-- C10: in `merge_datasets`, every key present only in the sales table
yields a merged row whose dwelling-side columns are all null (the
zero-fill touches only the sales columns), while its sales columns carry
the sales row's values. -/
theorem C10_sales_only_null_dwellings (dws : List DwellRow) (sls : List SalesRow) (r : SalesRow)
    (hr : r ∈ sls) (hnm : ∀ l ∈ dws, dwKey l ≠ slKey r) :
    ∃ m ∈ merge_datasets dws sls,
      m.regionCode = r.regionCode ∧ m.regionName = r.regionName ∧
      m.unsharedDwellings = none ∧ m.sharedDwellings = none ∧ m.totalDwellings = none ∧
      m.d = r.d ∧ m.f = r.f ∧ m.s = r.s ∧ m.t = r.t ∧ m.total = r.total := by
  refine ⟨mergeRows (none, some r), ?_, rfl, rfl, rfl, rfl, rfl, rfl, rfl, rfl, rfl, rfl⟩
  exact List.mem_map_of_mem mergeRows (outerJoin_mem_right_only hr hnm)

/-- C10, witness: the theorem applied to concrete one-row tables with
disjoint keys. -/
theorem C10_sales_only_null_dwellings_witness :
    ((⟨"E2", "South", 1, 1, 1, 1, 4⟩ : SalesRow) ∈ sampleSales) ∧
    (∃ m ∈ merge_datasets sampleDwells sampleSales,
      m.regionCode = "E2" ∧ m.regionName = "South" ∧
      m.unsharedDwellings = none ∧ m.sharedDwellings = none ∧ m.totalDwellings = none ∧
      m.d = 1 ∧ m.f = 1 ∧ m.s = 1 ∧ m.t = 1 ∧ m.total = 4) := by
  exact ⟨by decide,
    C10_sales_only_null_dwellings sampleDwells sampleSales
      ⟨"E2", "South", 1, 1, 1, 1, 4⟩ (by decide) (by decide)⟩

/-- C2: with at least one regional row and no NaN percentage values,
`identify_maxima` computes each column maximum over the non-aggregate
rows only (the `'NATIONAL'` row is excluded from the comparison), at
least one non-aggregate row is flagged true, every flagged row's value
equals that maximum, and every non-aggregate row attaining the maximum is
flagged (ties all flagged). -/
theorem C2_maxima_flags (df : List AnalysisRow)
    (hne : regionalRows df ≠ [])
    (hnn : ∀ r ∈ regionalRows df, r.pctDetached ≠ .NaN ∧ r.pctFlats ≠ .NaN ∧
      r.pctSemi ≠ .NaN ∧ r.pctTerraced ≠ .NaN ∧ r.salesRate ≠ .NaN) :
    ((∃ fr ∈ identify_maxima df, isNational fr.row = false ∧ fr.maxDetached = true) ∧
      (∀ fr ∈ identify_maxima df, fr.maxDetached = true →
        fr.row.pctDetached = regionalMaxDetached df) ∧
      (∀ fr ∈ identify_maxima df, isNational fr.row = false →
        fr.row.pctDetached = regionalMaxDetached df → fr.maxDetached = true)) ∧
    ((∃ fr ∈ identify_maxima df, isNational fr.row = false ∧ fr.maxFlats = true) ∧
      (∀ fr ∈ identify_maxima df, fr.maxFlats = true →
        fr.row.pctFlats = regionalMaxFlats df) ∧
      (∀ fr ∈ identify_maxima df, isNational fr.row = false →
        fr.row.pctFlats = regionalMaxFlats df → fr.maxFlats = true)) ∧
    ((∃ fr ∈ identify_maxima df, isNational fr.row = false ∧ fr.maxSemi = true) ∧
      (∀ fr ∈ identify_maxima df, fr.maxSemi = true →
        fr.row.pctSemi = regionalMaxSemi df) ∧
      (∀ fr ∈ identify_maxima df, isNational fr.row = false →
        fr.row.pctSemi = regionalMaxSemi df → fr.maxSemi = true)) ∧
    ((∃ fr ∈ identify_maxima df, isNational fr.row = false ∧ fr.maxTerraced = true) ∧
      (∀ fr ∈ identify_maxima df, fr.maxTerraced = true →
        fr.row.pctTerraced = regionalMaxTerraced df) ∧
      (∀ fr ∈ identify_maxima df, isNational fr.row = false →
        fr.row.pctTerraced = regionalMaxTerraced df → fr.maxTerraced = true)) ∧
    ((∃ fr ∈ identify_maxima df, isNational fr.row = false ∧ fr.maxSalesRate = true) ∧
      (∀ fr ∈ identify_maxima df, fr.maxSalesRate = true →
        fr.row.salesRate = regionalMaxSalesRate df) ∧
      (∀ fr ∈ identify_maxima df, isNational fr.row = false →
        fr.row.salesRate = regionalMaxSalesRate df → fr.maxSalesRate = true)) := by
  refine ⟨?_, ?_, ?_, ?_, ?_⟩
  · exact maxflag_lifted df (fun r => r.pctDetached) (fun fr => fr.maxDetached)
      (fun r => rfl) hne (fun r hr => (hnn r hr).1)
  · exact maxflag_lifted df (fun r => r.pctFlats) (fun fr => fr.maxFlats)
      (fun r => rfl) hne (fun r hr => (hnn r hr).2.1)
  · exact maxflag_lifted df (fun r => r.pctSemi) (fun fr => fr.maxSemi)
      (fun r => rfl) hne (fun r hr => (hnn r hr).2.2.1)
  · exact maxflag_lifted df (fun r => r.pctTerraced) (fun fr => fr.maxTerraced)
      (fun r => rfl) hne (fun r hr => (hnn r hr).2.2.2.1)
  · exact maxflag_lifted df (fun r => r.salesRate) (fun fr => fr.maxSalesRate)
      (fun r => rfl) hne (fun r hr => (hnn r hr).2.2.2.2)

/-- C2, witness: the theorem applied to the concrete table with a
national row. -/
theorem C2_maxima_flags_witness :
    (regionalRows sampleDfWithNational ≠ []) ∧
    (∃ fr ∈ identify_maxima sampleDfWithNational,
      isNational fr.row = false ∧ fr.maxDetached = true) := by
  have h := C2_maxima_flags sampleDfWithNational (by decide) (by decide)
  exact ⟨by decide, h.1.1⟩

/-- C9: `identify_maxima` assigns the flag columns to every row of the
frame, the grand-total `'NATIONAL'` row included: any row whose (non-NaN)
value equals the maximum over the non-aggregate rows carries a true flag,
so the national row is flagged whenever its percentage coincides with the
regional maximum. -/
theorem C9_national_row_flagged (df : List AnalysisRow) (fr : FlaggedRow)
    (hfr : fr ∈ identify_maxima df) (hnat : isNational fr.row = true) :
    (fr.row.pctDetached ≠ .NaN → fr.row.pctDetached = regionalMaxDetached df →
      fr.maxDetached = true) ∧
    (fr.row.pctFlats ≠ .NaN → fr.row.pctFlats = regionalMaxFlats df →
      fr.maxFlats = true) ∧
    (fr.row.pctSemi ≠ .NaN → fr.row.pctSemi = regionalMaxSemi df →
      fr.maxSemi = true) ∧
    (fr.row.pctTerraced ≠ .NaN → fr.row.pctTerraced = regionalMaxTerraced df →
      fr.maxTerraced = true) ∧
    (fr.row.salesRate ≠ .NaN → fr.row.salesRate = regionalMaxSalesRate df →
      fr.maxSalesRate = true) := by
  have hfr' : fr ∈ df.map (flagRow df) := hfr
  obtain ⟨r, hrdf, rfl⟩ := List.mem_map.1 hfr'
  refine ⟨?_, ?_, ?_, ?_, ?_⟩ <;>
    · intro hnn h
      show peq _ _ = true
      rw [flagRow_row] at hnn h
      rw [h] at hnn ⊢
      exact peq_refl hnn

/-- C9, witness: the theorem applied to the concrete national row whose
`Pct_Detached` ties the regional maximum. -/
theorem C9_national_row_flagged_witness :
    (flagRow sampleDfWithNational sampleNationalRow ∈ identify_maxima sampleDfWithNational) ∧
    isNational (flagRow sampleDfWithNational sampleNationalRow).row = true ∧
    (flagRow sampleDfWithNational sampleNationalRow).maxDetached = true := by
  have h := C9_national_row_flagged sampleDfWithNational
    (flagRow sampleDfWithNational sampleNationalRow) (by decide) (by decide)
  exact ⟨by decide, by decide, h.1 (by decide) (by decide)⟩

/-- C5, counterexample: the task_5 merge compares its keys verbatim, so a
dwellings key `"E12 "` and a sales key `"e12"` that differ only in case
and trailing whitespace are NOT matched (the outer merge yields two rows,
one per side); only the task_4 lookup join normalises, as the contrasting
third conjunct shows. -/
theorem C5_normalised_keys_cex :
    cleanKey "E12 " = cleanKey "e12" ∧
    (merge_datasets [⟨"E12 ", "North", 1, 1, 2⟩] [⟨"e12", "North", 1, 0, 0, 0, 1⟩]).length = 2 ∧
    ((task4_merged [⟨"E12 ", 1, 1, 1, 1, 4⟩] [⟨"e12", some "RC", some "RN"⟩]).map
      (fun pr => pr.2.isSome)) = [true] := by
  decide

/-- C5 (amended): only the task_4 district-lookup join trims and
upper-cases its key columns before comparison (rows whose keys agree
after normalisation are matched); the task_5 dwellings-sales merge and
the task_3 region-lookup merge pair rows only when the raw key values are
exactly equal. -/
theorem C5_key_normalisation_amended :
    (∀ (pivot : List PivotRow) (lookup : List LookupRow) (p : PivotRow) (lr : LookupRow),
      p ∈ pivot → lr ∈ lookup → cleanKey lr.ladName = cleanKey p.district →
      (p, some lr) ∈ task4_merged pivot lookup) ∧
    (∀ (dws : List DwellRow) (sls : List SalesRow) (l : DwellRow) (r : SalesRow),
      (some l, some r) ∈ outerJoin dwKey slKey dws sls → slKey r = dwKey l) ∧
    (∀ (cw : List CensusWideRow) (lk : List RegionLookupRow) (l : CensusWideRow)
      (r : RegionLookupRow), (l, some r) ∈ task3_merge cw lk → r.lad23cd = l.ladCode) := by
  refine ⟨?_, ?_, ?_⟩
  · intro pivot lookup p lr hp hlr hk
    exact leftJoin_mem_matched hp hlr hk
  · intro dws sls l r h
    exact (outerJoin_pair_inv h).2.2
  · intro cw lk l r h
    exact (leftJoin_matched_inv h).2.2

/-- C5, witness: the first part of the amended theorem applied to a
concrete pivot row and lookup row whose keys differ only in case and
whitespace. -/
theorem C5_key_normalisation_witness :
    cleanKey "Leeds " = cleanKey "leeds" ∧
    ((⟨"leeds", 1, 2, 3, 4, 10⟩ : PivotRow),
      some (⟨"Leeds ", some "RC", some "RN"⟩ : LookupRow)) ∈
        task4_merged [⟨"leeds", 1, 2, 3, 4, 10⟩] [⟨"Leeds ", some "RC", some "RN"⟩] := by
  exact ⟨by decide,
    C5_key_normalisation_amended.1 [⟨"leeds", 1, 2, 3, 4, 10⟩]
      [⟨"Leeds ", some "RC", some "RN"⟩] ⟨"leeds", 1, 2, 3, 4, 10⟩
      ⟨"Leeds ", some "RC", some "RN"⟩ (by decide) (by decide) (by decide)⟩

/-- C6: in `match_with_lookup`, every pivot row whose normalised district
name matches no lookup entry is reported in the unmatched diagnostic with
its district key and all five counts, no row of the matched result stems
from it, and every matched-result row carries the data of a lookup row
whose normalised name equals its own district; the join itself is total
and never fails. -/
theorem C6_unmatched_reported (pivot : List PivotRow) (lookup : List LookupRow) (p : PivotRow)
    (hp : p ∈ pivot)
    (hnm : ∀ lr ∈ lookup, cleanKey lr.ladName ≠ cleanKey p.district) :
    ((p.district, p.d, p.f, p.s, p.t, p.total) ∈ (match_with_lookup pivot lookup).2) ∧
    (∀ mr ∈ (match_with_lookup pivot lookup).1, cleanKey mr.district ≠ cleanKey p.district) ∧
    (∀ mr ∈ (match_with_lookup pivot lookup).1, ∃ lr ∈ lookup,
      cleanKey lr.ladName = cleanKey mr.district ∧ mr.ladName = lr.ladName ∧
      mr.regionCode = lr.regionCode ∧ mr.regionName = lr.regionName) := by
  have hresult : ∀ mr ∈ (match_with_lookup pivot lookup).1, ∃ lr ∈ lookup,
      cleanKey lr.ladName = cleanKey mr.district ∧ mr.ladName = lr.ladName ∧
      mr.regionCode = lr.regionCode ∧ mr.regionName = lr.regionName := by
    intro mr hmr
    obtain ⟨pr, hpr, hg⟩ := List.mem_filterMap.1 hmr
    by_cases hcase : (mergedRegionName pr).isSome
    · rw [if_pos hcase] at hg
      obtain ⟨lr, hpr2, hmr_eq⟩ := Option.map_eq_some'.1 hg
      have hprm : (pr.1, some lr) ∈ task4_merged pivot lookup := by
        rw [← hpr2]
        exact hpr
      have hinv := leftJoin_matched_inv hprm
      subst hmr_eq
      exact ⟨lr, hinv.2.1, hinv.2.2, rfl, rfl, rfl⟩
    · rw [if_neg hcase] at hg
      exact absurd hg (by simp)
  refine ⟨?_, ?_, hresult⟩
  · have hmem : (p, (none : Option LookupRow)) ∈ task4_merged pivot lookup :=
      leftJoin_mem_unmatched hp hnm
    exact List.mem_map_of_mem _ (List.mem_filter.2 ⟨hmem, rfl⟩)
  · intro mr hmr
    obtain ⟨lr, hlr, hkey, _, _, _⟩ := hresult mr hmr
    rw [← hkey]
    exact hnm lr hlr

/-- C6, witness: the theorem applied to a concrete pivot whose district
matches nothing in the lookup. -/
theorem C6_unmatched_reported_witness :
    ((⟨"Bristol", 1, 2, 3, 4, 10⟩ : PivotRow) ∈ samplePivot) ∧
    ("Bristol", (1:ℤ), (2:ℤ), (3:ℤ), (4:ℤ), (10:ℤ)) ∈
      (match_with_lookup samplePivot sampleLookup).2 := by
  exact ⟨by decide, (C6_unmatched_reported samplePivot sampleLookup
    ⟨"Bristol", 1, 2, 3, 4, 10⟩ (by decide) (by decide)).1⟩

/-- C7, counterexample: a left join whose right side carries two rows
with the same key produces two output rows from a one-row left table, so
the claim's unconditional "left-mode output rows = left-table rows"
fails. -/
theorem C7_row_count_cex :
    ([(⟨"A", 1, 1, 1, 1, 4⟩ : PivotRow)].length = 1) ∧
    (task4_merged [⟨"A", 1, 1, 1, 1, 4⟩]
      [⟨"A", some "R1", some "N1"⟩, ⟨"A", some "R2", some "N2"⟩]).length = 2 := by
  decide

/-- C7 (amended): when the join keys are unique on the right side (left
joins) respectively on both sides (outer join), the task_4 and task_3
left joins produce exactly one output row per left row, and the task_5
outer merge produces exactly one output row per distinct key present in
either table. -/
theorem C7_join_row_counts (pivot : List PivotRow) (lookup : List LookupRow)
    (cw : List CensusWideRow) (lk : List RegionLookupRow)
    (dws : List DwellRow) (sls : List SalesRow) :
    ((lookup.map fun lr => cleanKey lr.ladName).Nodup →
      (task4_merged pivot lookup).length = pivot.length) ∧
    ((lk.map fun r => r.lad23cd).Nodup → (task3_merge cw lk).length = cw.length) ∧
    ((dws.map dwKey).Nodup → (sls.map slKey).Nodup →
      (merge_datasets dws sls).length = ((dws.map dwKey) ++ (sls.map slKey)).toFinset.card) := by
  refine ⟨?_, ?_, ?_⟩
  · intro h
    exact leftJoin_length _ _ pivot lookup h
  · intro h
    exact leftJoin_length _ _ cw lk h
  · intro hl hr
    unfold merge_datasets
    rw [List.length_map]
    exact outerJoin_length dwKey slKey dws sls hl hr

/-- C7, witness: the amended theorem applied to concrete one-row tables
with unique keys. -/
theorem C7_join_row_counts_witness :
    ((sampleLookup.map fun lr => cleanKey lr.ladName).Nodup) ∧
    (task4_merged samplePivot sampleLookup).length = samplePivot.length ∧
    (merge_datasets sampleDwells sampleSales).length =
      ((sampleDwells.map dwKey) ++ (sampleSales.map slKey)).toFinset.card := by
  have h := C7_join_row_counts samplePivot sampleLookup [] [] sampleDwells sampleSales
  exact ⟨by decide, h.1 (by decide), h.2.2 (by decide) (by decide)⟩

/-- C8: `DataFrame.pivot` as called by task_3 raises a `ValueError` (the
error branch of the embedding) whenever the input contains two rows with
the same (key, category) pair, so the pivot never silently sums or
overwrites duplicates; and on success every wide cell carries exactly the
observation of its unique source row. -/
theorem C8_pivot_duplicates (rows : List CensusRow)
    (hdup : ¬ (rows.map censusPivotKey).Nodup) :
    pivotCensus rows = .error "Index contains duplicate entries, cannot reshape" ∧
    (∀ (rows2 : List CensusRow) (wide : List ((String × String) × List (String × ℤ))),
      pivotCensus rows2 = .ok wide →
      ∀ r ∈ rows2, ∀ cats, (censusRowKey r, cats) ∈ wide →
        cats.lookup r.category = some r.observation) := by
  constructor
  · unfold pivotCensus
    rw [if_neg hdup]
  · intro rows2 wide hok r hr cats hcats
    by_cases hnd : (rows2.map censusPivotKey).Nodup
    · unfold pivotCensus at hok
      rw [if_pos hnd] at hok
      injection hok with hok
      subst hok
      obtain ⟨k, hk, hEq⟩ := List.mem_map.1 hcats
      injection hEq with h1 h2
      subst h1
      subst h2
      apply lookup_eq_of_nodup_keys
      · exact filtered_categories_nodup rows2 _ hnd
      · exact List.mem_map_of_mem _ (List.mem_filter.2 ⟨hr, by simp⟩)
    · unfold pivotCensus at hok
      rw [if_neg hnd] at hok
      exact absurd hok (by simp)

/-- C8, witness: the theorem applied to a concrete census table with a
duplicated (key, category) pair. -/
theorem C8_pivot_duplicates_witness :
    (¬ (dupCensusRows.map censusPivotKey).Nodup) ∧
    pivotCensus dupCensusRows = .error "Index contains duplicate entries, cannot reshape" := by
  exact ⟨by decide, (C8_pivot_duplicates dupCensusRows (by decide)).1⟩

end Spec2Proof
